import Mathlib

/-!
Verification of the preference-memory engine of the `deco` interior-design
agent (Python backend), as a shallow embedding in Lean 4.

Modelling conventions:
* Python `float` arithmetic on confidences, deltas, similarity scores and
  distances is idealised as exact arithmetic over `ℚ` (or over `ℝ` where the
  source computes fractional powers, namely time decay and recency scoring).
* Python strings are modelled as `String` / `List Char`; `str.lower()` is
  `Char.toLower` mapped over the characters, and the Python substring test
  `needle in haystack` is the executable `strContains` below.
* Database tables (Supabase rows) are modelled as `List UserPreference`;
  the UUID primary key of a row is idealised as a `Nat` identifier, and row
  creation draws a fresh identifier not present in the store.
* Fallible external calls (Supabase, ChromaDB) are modelled by parametrising
  the embedded function over the outcome of the call, of type `Except String α`:
  `.error e` models the Python call raising an exception `e`.
-/

/-- Preference dimensions, from `backend/models/types.py` (`PreferenceType`). -/
inductive PreferenceType
  | style
  | color
  | warmth
  | complexity
  | lighting
  | furniture
  | material
  | other
deriving DecidableEq, Repr

/-- A preference row, from `backend/models/schemas.py` (`UserPreference`).
The UUID `id` is idealised as a `Nat`; `created_at` / `updated_at` are not
carried because no verified claim depends on them on the `ℚ`-valued model. -/
structure UserPreference where
  id : Nat
  userId : String
  prefType : PreferenceType
  prefValue : String
  confidence : ℚ
  sourceRoomId : Option String
deriving DecidableEq, Repr

/-- The character list of a string literal (used to spell out keyword tables). -/
def kw (s : String) : List Char := s.toList

/-- Python substring test `needle in hay` on character lists. -/
def strContains : List Char → List Char → Bool
  | [], needle => needle.isEmpty
  | c :: t, needle => needle.isPrefixOf (c :: t) || strContains t needle

/-- Python `text.lower()`. -/
def lowered (text : List Char) : List Char := text.map Char.toLower

/-- Keyword table from `PreferenceLearner.STYLE_KEYWORDS`. -/
def STYLE_KEYWORDS : List (String × List (List Char)) :=
  [ ("modern", [kw "modern", kw "contemporary", kw "minimalist", kw "clean"]),
    ("traditional", [kw "traditional", kw "classic", kw "vintage", kw "antique"]),
    ("rustic", [kw "rustic", kw "farmhouse", kw "country", kw "natural"]),
    ("industrial", [kw "industrial", kw "urban", kw "loft", kw "metal"]),
    ("bohemian", [kw "bohemian", kw "boho", kw "eclectic", kw "colorful"]),
    ("scandinavian", [kw "scandinavian", kw "nordic", kw "simple", kw "functional"]) ]

/-- Keyword table from `PreferenceLearner.WARMTH_KEYWORDS`. -/
def WARMTH_KEYWORDS : List (String × List (List Char)) :=
  [ ("warm", [kw "warm", kw "cozy", kw "inviting", kw "comfortable"]),
    ("cool", [kw "cool", kw "crisp", kw "fresh", kw "airy"]),
    ("neutral", [kw "neutral", kw "balanced", kw "moderate"]) ]

/-- Keyword table from `PreferenceLearner.COMPLEXITY_KEYWORDS`. -/
def COMPLEXITY_KEYWORDS : List (String × List (List Char)) :=
  [ ("simple", [kw "simple", kw "minimal", kw "clean", kw "uncluttered"]),
    ("moderate", [kw "moderate", kw "balanced"]),
    ("complex", [kw "detailed", kw "ornate", kw "elaborate", kw "rich"]) ]

/-- Keyword table from `PreferenceLearner.COLOR_KEYWORDS`. -/
def COLOR_KEYWORDS : List (String × List (List Char)) :=
  [ ("blue", [kw "blue", kw "navy", kw "azure", kw "cobalt"]),
    ("green", [kw "green", kw "sage", kw "olive", kw "emerald"]),
    ("gray", [kw "gray", kw "grey", kw "charcoal", kw "slate"]),
    ("white", [kw "white", kw "ivory", kw "cream", kw "off-white"]),
    ("black", [kw "black", kw "ebony", kw "onyx"]),
    ("brown", [kw "brown", kw "tan", kw "beige", kw "taupe", kw "caramel"]),
    ("red", [kw "red", kw "burgundy", kw "crimson", kw "maroon"]),
    ("yellow", [kw "yellow", kw "gold", kw "mustard"]),
    ("orange", [kw "orange", kw "coral", kw "terracotta"]),
    ("pink", [kw "pink", kw "rose", kw "blush"]),
    ("purple", [kw "purple", kw "lavender", kw "plum", kw "violet"]) ]

/-- Keyword table from `PreferenceLearner.MATERIAL_KEYWORDS`. -/
def MATERIAL_KEYWORDS : List (String × List (List Char)) :=
  [ ("wood", [kw "wood", kw "wooden", kw "oak", kw "walnut", kw "pine", kw "teak"]),
    ("metal", [kw "metal", kw "steel", kw "brass", kw "copper", kw "iron"]),
    ("glass", [kw "glass"]),
    ("fabric", [kw "fabric", kw "textile", kw "upholstered"]),
    ("leather", [kw "leather"]),
    ("stone", [kw "stone", kw "granite", kw "marble"]),
    ("concrete", [kw "concrete"]),
    ("ceramic", [kw "ceramic", kw "tile", kw "porcelain"]),
    ("carpet", [kw "carpet", kw "rug"]),
    ("velvet", [kw "velvet"]),
    ("linen", [kw "linen"]),
    ("rattan", [kw "rattan", kw "wicker"]) ]

/-- Does at least one keyword of the list occur in the lowered text?
This is `any(keyword in text_lower for keyword in keywords)`. -/
def matchesAny (textLower : List Char) (kws : List (List Char)) : Bool :=
  kws.any (fun k => strContains textLower k)

/-- One loop of `PreferenceLearner.extract_preferences_from_text`: for every
table entry whose keyword list hits the lowered text, emit a candidate of the
given dimension carrying the given confidence. -/
def extractDim (uid : String) (srid : Option String) (t : PreferenceType)
    (conf : ℚ) (table : List (String × List (List Char)))
    (textLower : List Char) : List UserPreference :=
  (table.filter (fun p => matchesAny textLower p.2)).map
    (fun p => { id := 0, userId := uid, prefType := t, prefValue := p.1,
                confidence := conf, sourceRoomId := srid })

/-- The warmth base weight, from `learner.py` line 96:
`0.15 if "warm" in text_lower or "cozy" in text_lower else 0.1`. -/
def warmthConfidence (textLower : List Char) : ℚ :=
  if strContains textLower (kw "warm") || strContains textLower (kw "cozy")
  then 15/100 else 1/10

/-- The five extraction passes in source order, each given as
(dimension, base confidence, keyword table). -/
def extractionDims (textLower : List Char) :
    List (PreferenceType × ℚ × List (String × List (List Char))) :=
  [ (PreferenceType.style, 1/10, STYLE_KEYWORDS),
    (PreferenceType.warmth, warmthConfidence textLower, WARMTH_KEYWORDS),
    (PreferenceType.complexity, 1/10, COMPLEXITY_KEYWORDS),
    (PreferenceType.color, 1/10, COLOR_KEYWORDS),
    (PreferenceType.material, 1/10, MATERIAL_KEYWORDS) ]

/-- `PreferenceLearner.extract_preferences_from_text` (learner.py 66-137):
lower the text, then run the five keyword passes in order, concatenating the
candidates. -/
def extractPreferencesFromText (text : List Char) (uid : String)
    (srid : Option String) : List UserPreference :=
  (extractionDims (lowered text)).flatMap
    (fun d => extractDim uid srid d.1 d.2.1 d.2.2 (lowered text))

/-- The keyword table of each preference dimension; dimensions without an
extraction pass have an empty table. -/
def dimensionTable : PreferenceType → List (String × List (List Char))
  | PreferenceType.style => STYLE_KEYWORDS
  | PreferenceType.warmth => WARMTH_KEYWORDS
  | PreferenceType.complexity => COMPLEXITY_KEYWORDS
  | PreferenceType.color => COLOR_KEYWORDS
  | PreferenceType.material => MATERIAL_KEYWORDS
  | _ => []

/-- Helper: a keyword hit for some keyword in the list makes `matchesAny` true. -/
theorem matchesAny_of_exists (textLower : List Char) (kws : List (List Char))
    (h : ∃ k ∈ kws, strContains textLower k = true) :
    matchesAny textLower kws = true := by
  rcases h with ⟨k, hk, hc⟩
  unfold matchesAny
  exact List.any_eq_true.mpr ⟨k, hk, hc⟩

/-- Helper: if every keyword of the list misses, `matchesAny` is false. -/
theorem matchesAny_eq_false (textLower : List Char) (kws : List (List Char))
    (h : ∀ k ∈ kws, strContains textLower k = false) :
    matchesAny textLower kws = false := by
  unfold matchesAny
  rw [List.any_eq_false]
  intro k hk
  simp [h k hk]

/-- Helper: a table entry with a keyword hit contributes its candidate to the
output of the corresponding extraction pass. -/
theorem mem_extractDim_of_hit (uid : String) (srid : Option String)
    (t : PreferenceType) (conf : ℚ) (table : List (String × List (List Char)))
    (textLower : List Char) (V : String) (kws : List (List Char))
    (hmem : (V, kws) ∈ table) (hhit : matchesAny textLower kws = true) :
    ({ id := 0, userId := uid, prefType := t, prefValue := V,
       confidence := conf, sourceRoomId := srid } : UserPreference) ∈
      extractDim uid srid t conf table textLower := by
  unfold extractDim
  exact List.mem_map.mpr ⟨(V, kws), List.mem_filter.mpr ⟨hmem, hhit⟩, rfl⟩

/-- Helper: an extraction pass over a table with no keyword hit emits nothing. -/
theorem extractDim_eq_nil (uid : String) (srid : Option String)
    (t : PreferenceType) (conf : ℚ) (table : List (String × List (List Char)))
    (textLower : List Char)
    (h : ∀ V kws, (V, kws) ∈ table → matchesAny textLower kws = false) :
    extractDim uid srid t conf table textLower = [] := by
  unfold extractDim
  rw [List.filter_eq_nil_iff.mpr]
  · rfl
  · intro p hp
    simp [h p.1 p.2 hp]

/-- C4: for every input text and preference dimension D with canonical value V,
a substring hit of one of the trigger keywords of V in the lowercased text
produces a candidate (D, V) in the output of
`PreferenceLearner.extract_preferences_from_text`; and if no trigger keyword of
any value of any dimension occurs in the lowercased text, the extractor
returns the empty list. -/
theorem extract_keyword_semantics (text : List Char) (uid : String)
    (srid : Option String) :
    (∀ (D : PreferenceType) (V : String) (kws : List (List Char)),
        (V, kws) ∈ dimensionTable D →
        (∃ k ∈ kws, strContains (lowered text) k = true) →
        ∃ c ∈ extractPreferencesFromText text uid srid,
          c.prefType = D ∧ c.prefValue = V) ∧
    ((∀ (D : PreferenceType) (V : String) (kws : List (List Char)),
        (V, kws) ∈ dimensionTable D → ∀ k ∈ kws, strContains (lowered text) k = false) →
      extractPreferencesFromText text uid srid = []) := by
  constructor
  · intro D V kws hmem hhit
    have hma := matchesAny_of_exists (lowered text) kws hhit
    cases D
    case style =>
      refine ⟨{ id := 0, userId := uid, prefType := PreferenceType.style,
                prefValue := V, confidence := 1/10, sourceRoomId := srid }, ?_, rfl, rfl⟩
      exact List.mem_flatMap.mpr ⟨(PreferenceType.style, 1/10, STYLE_KEYWORDS),
        by simp [extractionDims],
        mem_extractDim_of_hit uid srid PreferenceType.style (1/10) STYLE_KEYWORDS
          (lowered text) V kws hmem hma⟩
    case warmth =>
      refine ⟨{ id := 0, userId := uid, prefType := PreferenceType.warmth,
                prefValue := V, confidence := warmthConfidence (lowered text),
                sourceRoomId := srid }, ?_, rfl, rfl⟩
      exact List.mem_flatMap.mpr
        ⟨(PreferenceType.warmth, warmthConfidence (lowered text), WARMTH_KEYWORDS),
        by simp [extractionDims],
        mem_extractDim_of_hit uid srid PreferenceType.warmth
          (warmthConfidence (lowered text)) WARMTH_KEYWORDS
          (lowered text) V kws hmem hma⟩
    case complexity =>
      refine ⟨{ id := 0, userId := uid, prefType := PreferenceType.complexity,
                prefValue := V, confidence := 1/10, sourceRoomId := srid }, ?_, rfl, rfl⟩
      exact List.mem_flatMap.mpr ⟨(PreferenceType.complexity, 1/10, COMPLEXITY_KEYWORDS),
        by simp [extractionDims],
        mem_extractDim_of_hit uid srid PreferenceType.complexity (1/10) COMPLEXITY_KEYWORDS
          (lowered text) V kws hmem hma⟩
    case color =>
      refine ⟨{ id := 0, userId := uid, prefType := PreferenceType.color,
                prefValue := V, confidence := 1/10, sourceRoomId := srid }, ?_, rfl, rfl⟩
      exact List.mem_flatMap.mpr ⟨(PreferenceType.color, 1/10, COLOR_KEYWORDS),
        by simp [extractionDims],
        mem_extractDim_of_hit uid srid PreferenceType.color (1/10) COLOR_KEYWORDS
          (lowered text) V kws hmem hma⟩
    case material =>
      refine ⟨{ id := 0, userId := uid, prefType := PreferenceType.material,
                prefValue := V, confidence := 1/10, sourceRoomId := srid }, ?_, rfl, rfl⟩
      exact List.mem_flatMap.mpr ⟨(PreferenceType.material, 1/10, MATERIAL_KEYWORDS),
        by simp [extractionDims],
        mem_extractDim_of_hit uid srid PreferenceType.material (1/10) MATERIAL_KEYWORDS
          (lowered text) V kws hmem hma⟩
    case lighting => simp [dimensionTable] at hmem
    case furniture => simp [dimensionTable] at hmem
    case other => simp [dimensionTable] at hmem
  · intro h
    have e1 := extractDim_eq_nil uid srid PreferenceType.style (1/10)
      STYLE_KEYWORDS (lowered text)
      (fun V kws hm => matchesAny_eq_false (lowered text) kws
        (h PreferenceType.style V kws hm))
    have e2 := extractDim_eq_nil uid srid PreferenceType.warmth
      (warmthConfidence (lowered text)) WARMTH_KEYWORDS (lowered text)
      (fun V kws hm => matchesAny_eq_false (lowered text) kws
        (h PreferenceType.warmth V kws hm))
    have e3 := extractDim_eq_nil uid srid PreferenceType.complexity (1/10)
      COMPLEXITY_KEYWORDS (lowered text)
      (fun V kws hm => matchesAny_eq_false (lowered text) kws
        (h PreferenceType.complexity V kws hm))
    have e4 := extractDim_eq_nil uid srid PreferenceType.color (1/10)
      COLOR_KEYWORDS (lowered text)
      (fun V kws hm => matchesAny_eq_false (lowered text) kws
        (h PreferenceType.color V kws hm))
    have e5 := extractDim_eq_nil uid srid PreferenceType.material (1/10)
      MATERIAL_KEYWORDS (lowered text)
      (fun V kws hm => matchesAny_eq_false (lowered text) kws
        (h PreferenceType.material V kws hm))
    simp only [extractPreferencesFromText, extractionDims, List.flatMap_cons,
      List.flatMap_nil, List.append_nil, e1, e2, e3, e4, e5]

/-- C4 witness: the text "a modern room" contains the style keyword "modern",
so the extractor emits a (style, modern) candidate; the hypotheses of
`extract_keyword_semantics` are discharged at this concrete input. -/
theorem extract_keyword_semantics_witness :
    ∃ c ∈ extractPreferencesFromText (kw "a modern room") "u" none,
      c.prefType = PreferenceType.style ∧ c.prefValue = "modern" :=
  (extract_keyword_semantics (kw "a modern room") "u" none).1
    PreferenceType.style "modern"
    [kw "modern", kw "contemporary", kw "minimalist", kw "clean"]
    (by decide) ⟨kw "modern", by decide, by decide⟩

/-- C9: every extracted candidate carries base weight 0.1, except that a
warmth candidate carries 0.15 exactly when the lowercased text contains the
substring "warm" or the substring "cozy" (whichever warmth value matched),
and 0.1 otherwise. -/
theorem extract_base_weights (text : List Char) (uid : String)
    (srid : Option String) :
    ∀ c ∈ extractPreferencesFromText text uid srid,
      (c.prefType = PreferenceType.warmth →
        c.confidence =
          (if strContains (lowered text) (kw "warm")
              || strContains (lowered text) (kw "cozy")
           then 15/100 else 1/10)) ∧
      (c.prefType ≠ PreferenceType.warmth → c.confidence = 1/10) := by
  intro c hc
  rcases List.mem_flatMap.mp hc with ⟨d, hd, hcd⟩
  have hfields : c.prefType = d.1 ∧ c.confidence = d.2.1 := by
    unfold extractDim at hcd
    rcases List.mem_map.mp hcd with ⟨p, _, hp⟩
    rw [← hp]
    exact ⟨rfl, rfl⟩
  simp only [extractionDims, List.mem_cons, List.not_mem_nil, or_false] at hd
  rcases hd with rfl | rfl | rfl | rfl | rfl
  · exact ⟨fun hw => absurd (hfields.1.symm.trans hw) (by decide),
      fun _ => hfields.2⟩
  · refine ⟨fun _ => ?_, fun hne => absurd hfields.1 hne⟩
    rw [hfields.2]
    rfl
  · exact ⟨fun hw => absurd (hfields.1.symm.trans hw) (by decide),
      fun _ => hfields.2⟩
  · exact ⟨fun hw => absurd (hfields.1.symm.trans hw) (by decide),
      fun _ => hfields.2⟩
  · exact ⟨fun hw => absurd (hfields.1.symm.trans hw) (by decide),
      fun _ => hfields.2⟩

/-- C9 witness: on the text "cozy" the extractor emits exactly the warmth
candidate for value "warm", and by `extract_base_weights` its confidence is
0.15; the membership and type hypotheses are discharged concretely. -/
theorem extract_base_weights_witness :
    ({ id := 0, userId := "u", prefType := PreferenceType.warmth,
       prefValue := "warm", confidence := 15/100, sourceRoomId := none } :
        UserPreference) ∈ extractPreferencesFromText (kw "cozy") "u" none ∧
    ({ id := 0, userId := "u", prefType := PreferenceType.warmth,
       prefValue := "warm", confidence := 15/100, sourceRoomId := none } :
        UserPreference).confidence = 15/100 := by
  have hlist : extractPreferencesFromText (kw "cozy") "u" none =
      [{ id := 0, userId := "u", prefType := PreferenceType.warmth,
         prefValue := "warm", confidence := 15/100,
         sourceRoomId := none }] := rfl
  have hm : ({ id := 0, userId := "u", prefType := PreferenceType.warmth,
               prefValue := "warm", confidence := 15/100,
               sourceRoomId := none } : UserPreference) ∈
      extractPreferencesFromText (kw "cozy") "u" none := by
    rw [hlist]
    exact List.mem_singleton.mpr rfl
  refine ⟨hm, ?_⟩
  have h := ((extract_base_weights (kw "cozy") "u" none) _ hm).1 rfl
  have hcond : (strContains (lowered (kw "cozy")) (kw "warm")
      || strContains (lowered (kw "cozy")) (kw "cozy")) = true := by decide
  rw [h, if_pos hcond]

/-- Exact-match predicate on the (user_id, preference_type, preference_value)
tuple of a row, as used by `SupabaseDataStorage.find_preference`. -/
def matchesTuple (uid : String) (t : PreferenceType) (v : String)
    (r : UserPreference) : Bool :=
  decide (r.userId = uid ∧ r.prefType = t ∧ r.prefValue = v)

/-- `SupabaseDataStorage.find_preference` (storage.py 283-300): the first row
of the table matching the tuple exactly (`limit 1`), if any. -/
def findPreference (store : List UserPreference) (uid : String)
    (t : PreferenceType) (v : String) : Option UserPreference :=
  store.find? (matchesTuple uid t v)

/-- A row identifier not used by any row of the store. The source generates a
fresh UUID for every new row; freshness is idealised as max-plus-one. -/
def freshId (store : List UserPreference) : Nat :=
  (store.map (fun r => r.id)).foldr max 0 + 1

/-- `SupabaseDataStorage.update_preference` on the happy path
(storage.py 246-263): overwrite the row whose primary key equals the updated
row, leaving every other row unchanged. -/
def storageUpdatePreference (store : List UserPreference)
    (p : UserPreference) : List UserPreference :=
  store.map (fun r => if r.id = p.id then p else r)

/-- `SupabaseDataStorage.create_preference` on the happy path
(storage.py 236-244): insert the row under a fresh primary key. Returns the
new table and the created row. -/
def storageCreatePreference (store : List UserPreference)
    (p : UserPreference) : List UserPreference × UserPreference :=
  let created := { p with id := freshId store }
  (store ++ [created], created)

/-- The `if source_room_id:` overwrite of learner.py lines 165-166 (a supplied
room id replaces the stored one; `None` leaves it unchanged). -/
def applyRoomId (srid : Option String) (r : UserPreference) : UserPreference :=
  match srid with
  | some s => { r with sourceRoomId := some s }
  | none => r

/-- `PreferenceLearner.update_preference_confidence` (learner.py 139-177) as a
pure transition on the preference table: look up the exact tuple; if found,
clamp `old + delta` into [0,1] and overwrite that row; otherwise create a row
with confidence `clamp(0.3 + delta, 0, 1)`. Returns the new table and the
affected row (the value the source returns). -/
def updatePreferenceConfidence (store : List UserPreference) (uid : String)
    (t : PreferenceType) (v : String) (delta : ℚ) (srid : Option String) :
    List UserPreference × UserPreference :=
  match findPreference store uid t v with
  | some ex =>
      let ex' := applyRoomId srid
        { ex with confidence := min 1 (max 0 (ex.confidence + delta)) }
      (storageUpdatePreference store ex', ex')
  | none =>
      storageCreatePreference store
        { id := 0, userId := uid, prefType := t, prefValue := v,
          confidence := max 0 (min 1 (3/10 + delta)), sourceRoomId := srid }

/-- Clamping into the unit interval, as the claims state it. -/
def clamp01 (x : ℚ) : ℚ := min 1 (max 0 x)

/-- Helper: the two clamp spellings of the source agree. -/
theorem max_min_eq_clamp01 (x : ℚ) : max 0 (min 1 x) = min 1 (max 0 x) := by
  rcases le_total x 0 with h | h <;> rcases le_total x 1 with h' | h' <;>
    simp [min_def, max_def] <;> split_ifs <;> linarith

/-- Helper: overwriting the room id does not change the confidence. -/
theorem applyRoomId_confidence (srid : Option String) (r : UserPreference) :
    (applyRoomId srid r).confidence = r.confidence := by
  cases srid <;> rfl

/-- C1: one call of the confidence updater. If a row with the exact
(user_id, type, value) tuple exists, the affected row carries confidence
`clamp(old + delta, 0, 1)`; if none exists, the created row carries
`clamp(0.3 + delta, 0, 1)`; in either case (hence after every update of any
sequence of updates, each of which ends in such a clamp) the affected row
satisfies `0 ≤ confidence ≤ 1`. -/
theorem update_confidence_clamped (store : List UserPreference) (uid : String)
    (t : PreferenceType) (v : String) (delta : ℚ) (srid : Option String) :
    (∀ ex, findPreference store uid t v = some ex →
      (updatePreferenceConfidence store uid t v delta srid).2.confidence =
        clamp01 (ex.confidence + delta)) ∧
    (findPreference store uid t v = none →
      (updatePreferenceConfidence store uid t v delta srid).2.confidence =
        clamp01 (3/10 + delta)) ∧
    0 ≤ (updatePreferenceConfidence store uid t v delta srid).2.confidence ∧
    (updatePreferenceConfidence store uid t v delta srid).2.confidence ≤ 1 := by
  refine ⟨?_, ?_, ?_⟩
  · intro ex hex
    simp only [updatePreferenceConfidence, hex, applyRoomId_confidence, clamp01]
  · intro hnone
    simp only [updatePreferenceConfidence, hnone, storageCreatePreference,
      max_min_eq_clamp01, clamp01]
  · cases hfind : findPreference store uid t v with
    | some ex =>
        simp only [updatePreferenceConfidence, hfind, applyRoomId_confidence]
        constructor
        · exact le_min (by norm_num) (le_max_left 0 _)
        · exact min_le_left 1 _
    | none =>
        simp only [updatePreferenceConfidence, hfind, storageCreatePreference]
        constructor
        · exact le_max_left 0 _
        · exact max_le (by norm_num) (min_le_left 1 _)

/-- C1 witness: on a store holding the tuple (u, style, modern) at confidence
0.4, an update with delta 0.3 yields an affected row at confidence
clamp(0.4 + 0.3) = 0.7; the lookup hypothesis is discharged by `rfl`. -/
theorem update_confidence_clamped_witness :
    (updatePreferenceConfidence
      [{ id := 1, userId := "u", prefType := PreferenceType.style,
         prefValue := "modern", confidence := 4/10, sourceRoomId := none }]
      "u" PreferenceType.style "modern" (3/10) none).2.confidence =
      clamp01 (4/10 + 3/10) :=
  (update_confidence_clamped
      [{ id := 1, userId := "u", prefType := PreferenceType.style,
         prefValue := "modern", confidence := 4/10, sourceRoomId := none }]
      "u" PreferenceType.style "modern" (3/10) none).1
    { id := 1, userId := "u", prefType := PreferenceType.style,
      prefValue := "modern", confidence := 4/10, sourceRoomId := none } rfl

/-- Number of rows of the table carrying a given (user, type, value) tuple. -/
def tupleCount (store : List UserPreference) (uid : String)
    (t : PreferenceType) (v : String) : Nat :=
  (store.filter (matchesTuple uid t v)).length

/-- The invariant of the claim: at most one row per tuple. -/
def TupleUnique (store : List UserPreference) : Prop :=
  ∀ uid t v, tupleCount store uid t v ≤ 1

/-- Primary-key uniqueness of the table, guaranteed by the database schema
(row ids are UUID primary keys). -/
def IdsNodup (store : List UserPreference) : Prop :=
  (store.map (fun r => r.id)).Nodup

/-- A sequence of confidence updates against the same tuple, each given by its
delta and optional source room. -/
def applyUpdates (store : List UserPreference) (uid : String)
    (t : PreferenceType) (v : String) (ops : List (ℚ × Option String)) :
    List UserPreference :=
  ops.foldl (fun s op => (updatePreferenceConfidence s uid t v op.1 op.2).1) store

/-- Helper: every member of a Nat list is bounded by its max fold. -/
theorem le_foldr_max (x : Nat) (l : List Nat) (h : x ∈ l) :
    x ≤ l.foldr max 0 := by
  induction l with
  | nil => cases h
  | cons a l ih =>
      rcases List.mem_cons.mp h with rfl | h'
      · exact le_max_left _ _
      · exact le_trans (ih h') (le_max_right _ _)

/-- Helper: the fresh id differs from every id in the store. -/
theorem id_ne_freshId (store : List UserPreference) (r : UserPreference)
    (h : r ∈ store) : r.id ≠ freshId store := by
  unfold freshId
  have := le_foldr_max r.id (store.map (fun r => r.id))
    (List.mem_map_of_mem _ h)
  omega

/-- Helper: the learner mutation of an existing row (clamped confidence, room
overwrite) keeps the row id. -/
theorem mutatedRow_id (srid : Option String) (delta : ℚ)
    (ex : UserPreference) :
    (applyRoomId srid
      { ex with confidence := min 1 (max 0 (ex.confidence + delta)) }).id =
      ex.id := by
  cases srid <;> rfl

/-- Helper: the learner mutation of an existing row keeps its tuple fields,
hence its tuple-match status against any tuple. -/
theorem mutatedRow_matches (srid : Option String) (delta : ℚ)
    (ex : UserPreference) (u' : String) (t' : PreferenceType) (v' : String) :
    matchesTuple u' t' v'
      (applyRoomId srid
        { ex with confidence := min 1 (max 0 (ex.confidence + delta)) }) =
      matchesTuple u' t' v' ex := by
  cases srid <;> rfl

/-- Helper: one confidence update preserves both invariants and leaves exactly
one row for the updated tuple. -/
theorem update_step (store : List UserPreference) (uid : String)
    (t : PreferenceType) (v : String) (delta : ℚ) (srid : Option String)
    (hU : TupleUnique store) (hI : IdsNodup store) :
    TupleUnique (updatePreferenceConfidence store uid t v delta srid).1 ∧
    IdsNodup (updatePreferenceConfidence store uid t v delta srid).1 ∧
    tupleCount (updatePreferenceConfidence store uid t v delta srid).1
      uid t v = 1 := by
  cases hfind : findPreference store uid t v with
  | none =>
      have hnone : ∀ x ∈ store, ¬ (matchesTuple uid t v x = true) := by
        intro x hx
        exact (List.find?_eq_none.mp hfind) x hx
      have hfilnil : store.filter (matchesTuple uid t v) = [] :=
        List.filter_eq_nil_iff.mpr hnone
      simp only [updatePreferenceConfidence, hfind, storageCreatePreference]
      refine ⟨?_, ?_, ?_⟩
      · intro u' t' v'
        unfold tupleCount
        rw [List.filter_append, List.length_append]
        cases hmc : matchesTuple u' t' v'
            { id := freshId store, userId := uid, prefType := t,
              prefValue := v, confidence := max 0 (min 1 (3/10 + delta)),
              sourceRoomId := srid } with
        | false =>
            have : (List.filter (matchesTuple u' t' v')
                [{ id := freshId store, userId := uid, prefType := t,
                   prefValue := v,
                   confidence := max 0 (min 1 (3/10 + delta)),
                   sourceRoomId := srid }]).length = 0 := by
              simp [List.filter, hmc]
            rw [this]
            have := hU u' t' v'
            unfold tupleCount at this
            omega
        | true =>
            have hkeys : u' = uid ∧ t' = t ∧ v' = v := by
              have := of_decide_eq_true hmc
              exact ⟨this.1.symm, this.2.1.symm, this.2.2.symm⟩
            rcases hkeys with ⟨rfl, rfl, rfl⟩
            have h1 : (List.filter (matchesTuple u' t' v')
                [{ id := freshId store, userId := u', prefType := t',
                   prefValue := v',
                   confidence := max 0 (min 1 (3/10 + delta)),
                   sourceRoomId := srid }]).length ≤ 1 :=
              le_trans (List.length_filter_le _ _) (by simp)
            rw [hfilnil]
            simpa using h1
      · unfold IdsNodup
        rw [List.map_append, List.nodup_append]
        refine ⟨hI, List.nodup_singleton _, ?_⟩
        intro a ha hb
        simp only [List.map_cons, List.map_nil, List.mem_singleton] at hb
        rcases List.mem_map.mp ha with ⟨r, hr, hra⟩
        exact id_ne_freshId store r hr (hra.symm ▸ hb ▸ rfl)
      · unfold tupleCount
        rw [List.filter_append, List.length_append, hfilnil]
        have hmc : matchesTuple uid t v
            { id := freshId store, userId := uid, prefType := t,
              prefValue := v, confidence := max 0 (min 1 (3/10 + delta)),
              sourceRoomId := srid } = true := by
          simp [matchesTuple]
        simp [List.filter, hmc]
  | some ex =>
      have hmem : ex ∈ store := List.mem_of_find?_eq_some hfind
      have hmatch : matchesTuple uid t v ex = true := List.find?_some hfind
      have hinj := List.inj_on_of_nodup_map hI
      simp only [updatePreferenceConfidence, hfind, storageUpdatePreference]
      set ex' := applyRoomId srid
        { ex with confidence := min 1 (max 0 (ex.confidence + delta)) } with hex'
      have hid : ex'.id = ex.id := mutatedRow_id srid delta ex
      have hketup : ∀ u' t' v', matchesTuple u' t' v' ex' =
          matchesTuple u' t' v' ex := fun u' t' v' =>
        mutatedRow_matches srid delta ex u' t' v'
      have hfid : ∀ r ∈ store,
          ((fun r => if r.id = ex'.id then ex' else r) r).id = r.id := by
        intro r _
        by_cases hc : r.id = ex'.id
        · simp [hc]
        · simp [hc]
      have hfmatch : ∀ (u' : String) (t' : PreferenceType) (v' : String),
          ∀ r ∈ store, matchesTuple u' t' v'
            ((fun r => if r.id = ex'.id then ex' else r) r) =
            matchesTuple u' t' v' r := by
        intro u' t' v' r hr
        by_cases hc : r.id = ex'.id
        · have hre : r = ex := hinj hr hmem (by rw [hc, hid])
          show matchesTuple u' t' v' (if r.id = ex'.id then ex' else r) =
            matchesTuple u' t' v' r
          rw [if_pos hc, hketup, hre]
        · simp [hc]
      have hcount : ∀ (u' : String) (t' : PreferenceType) (v' : String),
          tupleCount (store.map
            (fun r => if r.id = ex'.id then ex' else r)) u' t' v' =
          tupleCount store u' t' v' := by
        intro u' t' v'
        have hfmatch' : ∀ r ∈ store,
            (matchesTuple u' t' v' ∘ fun r => if r.id = ex'.id then ex' else r)
              r = matchesTuple u' t' v' r := hfmatch u' t' v'
        unfold tupleCount
        rw [List.filter_map, List.length_map, List.filter_congr hfmatch']
      refine ⟨?_, ?_, ?_⟩
      · intro u' t' v'
        rw [hcount u' t' v']
        exact hU u' t' v'
      · unfold IdsNodup
        rw [List.map_map]
        have : store.map
            ((fun r => r.id) ∘ (fun r => if r.id = ex'.id then ex' else r)) =
            store.map (fun r => r.id) := List.map_congr_left hfid
        rw [this]
        exact hI
      · rw [hcount uid t v]
        have hin : ex ∈ store.filter (matchesTuple uid t v) :=
          List.mem_filter.mpr ⟨hmem, hmatch⟩
        have h1 : 0 < (store.filter (matchesTuple uid t v)).length :=
          List.length_pos.mpr (List.ne_nil_of_mem hin)
        have h2 := hU uid t v
        unfold tupleCount at h2
        unfold tupleCount
        omega

/-- Helper: a run of updates against a tuple keeps both invariants and the
one-row property of that tuple. -/
theorem applyUpdates_preserves (uid : String) (t : PreferenceType) (v : String)
    (ops : List (ℚ × Option String)) :
    ∀ store, TupleUnique store → IdsNodup store →
      tupleCount store uid t v = 1 →
      tupleCount (applyUpdates store uid t v ops) uid t v = 1 := by
  induction ops with
  | nil =>
      intro store _ _ h3
      simpa [applyUpdates] using h3
  | cons op ops ih =>
      intro store h1 h2 _
      have hstep := update_step store uid t v op.1 op.2 h1 h2
      have := ih _ hstep.1 hstep.2.1 hstep.2.2
      simpa [applyUpdates, List.foldl_cons] using this

/-- C6: starting from a table with at most one row per (user, type, value)
tuple (and distinct primary keys, as the database schema guarantees), any
nonempty sequence of confidence updates against one tuple leaves exactly one
row for that tuple: lookup-then-update never creates a duplicate. -/
theorem upsert_unique (store : List UserPreference) (uid : String)
    (t : PreferenceType) (v : String) (op : ℚ × Option String)
    (ops : List (ℚ × Option String))
    (hU : TupleUnique store) (hI : IdsNodup store) :
    tupleCount (applyUpdates store uid t v (op :: ops)) uid t v = 1 := by
  have hstep := update_step store uid t v op.1 op.2 hU hI
  have := applyUpdates_preserves uid t v ops _ hstep.1 hstep.2.1 hstep.2.2
  simpa [applyUpdates, List.foldl_cons] using this

/-- C6 witness: from the empty store, two successive updates of the tuple
(u, style, modern) leave exactly one row for it; both invariant hypotheses are
discharged on the empty store. -/
theorem upsert_unique_witness :
    tupleCount (applyUpdates [] "u" PreferenceType.style "modern"
      [(1/10, none), (3/10, none)]) "u" PreferenceType.style "modern" = 1 :=
  upsert_unique [] "u" PreferenceType.style "modern" (1/10, none)
    [(3/10, none)]
    (fun _ _ _ => by simp [tupleCount])
    (by simp [IdsNodup])

/-- Sorting by confidence descending, as `order confidence desc` in
`SupabaseDataStorage.get_user_preferences` (a stable sort). -/
def sortByConfidenceDesc (l : List UserPreference) : List UserPreference :=
  List.insertionSort (fun a b => b.confidence ≤ a.confidence) l

/-- `SupabaseDataStorage.get_user_preferences` (storage.py 265-281) on the
happy path: rows of the user with confidence at least the threshold
(`gte`), sorted by confidence descending. -/
def storageGetUserPreferences (store : List UserPreference) (uid : String)
    (threshold : ℚ) : List UserPreference :=
  sortByConfidenceDesc
    (store.filter (fun r => decide (r.userId = uid ∧ threshold ≤ r.confidence)))

/-- The threshold resolution of `MemoryManager.get_user_preferences`
(manager.py 153): `confidence_threshold or config.PREFERENCE_CONFIDENCE_THRESHOLD`
with default 0.5. The Python `or` treats both `None` and `0.0` as falsy. -/
def resolveThreshold (t : Option ℚ) : ℚ :=
  match t with
  | none => 1/2
  | some x => if x = 0 then 1/2 else x

/-- `MemoryManager.get_user_preferences` (manager.py 149-154). -/
def managerGetUserPreferences (store : List UserPreference) (uid : String)
    (confidenceThreshold : Option ℚ) : List UserPreference :=
  storageGetUserPreferences store uid (resolveThreshold confidenceThreshold)

/-- C10: requesting preferences with an explicit threshold of 0.0 does not
return all rows: the falsiness check replaces 0.0 with the configured default
0.5, so the call behaves exactly like the default-threshold call and omits
every row of the user with confidence below 0.5. -/
theorem zero_threshold_uses_default (store : List UserPreference)
    (uid : String) :
    managerGetUserPreferences store uid (some 0) =
      storageGetUserPreferences store uid (1/2) ∧
    (∀ r ∈ managerGetUserPreferences store uid (some 0),
      1/2 ≤ r.confidence) ∧
    (∀ r ∈ store, r.userId = uid → r.confidence < 1/2 →
      r ∉ managerGetUserPreferences store uid (some 0)) := by
  have h0 : resolveThreshold (some 0) = 1/2 := by
    simp [resolveThreshold]
  have h1 : managerGetUserPreferences store uid (some 0) =
      storageGetUserPreferences store uid (1/2) := by
    unfold managerGetUserPreferences
    rw [h0]
  have h2 : ∀ r ∈ managerGetUserPreferences store uid (some 0),
      1/2 ≤ r.confidence := by
    intro r hr
    rw [h1] at hr
    unfold storageGetUserPreferences sortByConfidenceDesc at hr
    have hr' := (List.perm_insertionSort
      (fun a b : UserPreference => b.confidence ≤ a.confidence) _).mem_iff.mp hr
    have := (List.mem_filter.mp hr').2
    exact (of_decide_eq_true this).2
  refine ⟨h1, h2, ?_⟩
  intro r _ _ hlt hr
  exact absurd (h2 r hr) (not_le.mpr hlt)

/-- C10 witness: a row of user u with confidence 0.3 is omitted by a call
with explicit threshold 0.0; the membership and bound hypotheses are
discharged on a one-row store. -/
theorem zero_threshold_uses_default_witness :
    ({ id := 1, userId := "u", prefType := PreferenceType.style,
       prefValue := "modern", confidence := 3/10, sourceRoomId := none } :
        UserPreference) ∉
      managerGetUserPreferences
        [{ id := 1, userId := "u", prefType := PreferenceType.style,
           prefValue := "modern", confidence := 3/10, sourceRoomId := none }]
        "u" (some 0) :=
  (zero_threshold_uses_default
      [{ id := 1, userId := "u", prefType := PreferenceType.style,
         prefValue := "modern", confidence := 3/10, sourceRoomId := none }]
      "u").2.2 _ (List.mem_singleton.mpr rfl) rfl (by norm_num)

/-- `SupabaseDataStorage.update_preference` (storage.py 246-263) with the
outcome of the underlying database call made explicit: on `APIError` the
source logs and returns the in-memory row unchanged (no exception escapes);
on success it returns the echoed row if any, else the in-memory row. -/
def storageUpdatePreferenceDb (dbRes : Except String (List UserPreference))
    (p : UserPreference) : UserPreference :=
  match dbRes with
  | Except.ok (r :: _) => r
  | Except.ok [] => p
  | Except.error _ => p

/-- `SupabaseDataStorage.create_preference` (storage.py 236-244) with the
outcome of the underlying database call made explicit: an `APIError` is
re-raised; on success the first echoed row is returned (an empty echo would
raise an uncaught IndexError at `result.data[0]`). -/
def storageCreatePreferenceDb (dbRes : Except String (List UserPreference)) :
    Except String UserPreference :=
  match dbRes with
  | Except.ok (r :: _) => Except.ok r
  | Except.ok [] => Except.error "IndexError"
  | Except.error e => Except.error e

/-- `PreferenceLearner.update_preference_confidence` with the two storage
calls parametrised by their database outcomes (`updDb p` is the response to
updating row p, `creDb p` the response to inserting row p); `existing` is the
result of `find_preference`. An `Except.error` result models the Python call
raising. -/
def updatePreferenceConfidenceDb
    (updDb creDb : UserPreference → Except String (List UserPreference))
    (existing : Option UserPreference) (uid : String) (t : PreferenceType)
    (v : String) (delta : ℚ) (srid : Option String) :
    Except String UserPreference :=
  match existing with
  | some ex =>
      let ex' := applyRoomId srid
        { ex with confidence := min 1 (max 0 (ex.confidence + delta)) }
      Except.ok (storageUpdatePreferenceDb (updDb ex') ex')
  | none =>
      storageCreatePreferenceDb
        (creDb { id := 0, userId := uid, prefType := t, prefValue := v,
                 confidence := max 0 (min 1 (3/10 + delta)),
                 sourceRoomId := srid })

/-- `DesignAgent._learn_preferences_background` (design_agent.py 485-501):
the selection-triggered learning task catches every exception and only logs
it; the returned value is the logged message, never a raised error. -/
def learnPreferencesBackground (res : Except String Unit) : Option String :=
  match res with
  | Except.ok _ => none
  | Except.error e => some e

/-- C8 counterexample: a feedback-triggered update (delta 0.2) of an existing
row returns successfully even though the durable store fails with
"store unreachable" during the write: the update path swallows the
persistence error instead of raising it, contradicting the claim. -/
theorem update_error_swallowed_counterexample :
    (updatePreferenceConfidenceDb
        (fun _ => Except.error "store unreachable")
        (fun _ => Except.error "store unreachable")
        (some { id := 1, userId := "u", prefType := PreferenceType.style,
                prefValue := "modern", confidence := 2/5,
                sourceRoomId := none })
        "u" PreferenceType.style "modern" (2/10) none) =
      Except.ok { id := 1, userId := "u", prefType := PreferenceType.style,
                  prefValue := "modern",
                  confidence := min 1 (max 0 (2/5 + 2/10)),
                  sourceRoomId := none } ∧
    (updatePreferenceConfidenceDb
        (fun _ => Except.error "store unreachable")
        (fun _ => Except.error "store unreachable")
        (some { id := 1, userId := "u", prefType := PreferenceType.style,
                prefValue := "modern", confidence := 2/5,
                sourceRoomId := none })
        "u" PreferenceType.style "modern" (2/10) none).isOk = true :=
  ⟨rfl, rfl⟩

/-- C8 as amended: a persistence failure propagates to the caller only on the
create path (no existing row for the tuple); on the update path (an existing
row) the failure is caught and the locally-updated row is returned without
error; and selection-triggered learning runs in a background task that
catches and logs every error rather than raising it. -/
theorem persistence_error_routing
    (updDb creDb : UserPreference → Except String (List UserPreference))
    (uid : String) (t : PreferenceType) (v : String) (delta : ℚ)
    (srid : Option String) (ex : UserPreference) (e : String) :
    (updatePreferenceConfidenceDb updDb (fun _ => Except.error e) none
        uid t v delta srid = Except.error e) ∧
    (∃ r, updatePreferenceConfidenceDb updDb creDb (some ex)
        uid t v delta srid = Except.ok r) ∧
    learnPreferencesBackground (Except.error e) = some e :=
  ⟨rfl, ⟨_, rfl⟩, rfl⟩

/-- A metadata dictionary attached to a stored conversation chunk, modelled
as an association list. -/
abbrev ChromaMeta := List (String × String)

/-- The raw response of `ChromaStore.query`: parallel outer lists (one entry
per query) of documents, metadata dictionaries and cosine distances. -/
structure ChromaResults where
  documents : List (List String)
  metadatas : List (List ChromaMeta)
  distances : List (List ℚ)

/-- A formatted context item, as built by
`MemoryManager.retrieve_relevant_context`. -/
structure ContextNode where
  text : String
  metadata : ChromaMeta
  score : ℚ
deriving DecidableEq, Repr

/-- The result-formatting loop of `MemoryManager.retrieve_relevant_context`
(manager.py 126-144): guard on a nonempty documents list, take the first
query's rows, and for each document pair it with its metadata (or an empty
dict) and similarity `1 - distance` (or 0.0 when no distance is present). -/
def formatChromaResults (r : ChromaResults) : List ContextNode :=
  match r.documents with
  | [] => []
  | docs :: _ =>
      let metadatas := r.metadatas.headD []
      let distances := r.distances.headD []
      docs.enum.map (fun p =>
        { text := p.2
          metadata := if p.1 < metadatas.length then metadatas.getD p.1 [] else []
          score := if p.1 < distances.length then 1 - distances.getD p.1 0 else 0 })

/-- The `top_k or config.SIMILARITY_TOP_K` resolution (manager.py 122,
SIMILARITY_TOP_K = 5); Python `or` treats `None` and `0` as falsy. -/
def resolveTopK (topK : Option Nat) : Nat :=
  match topK with
  | none => 5
  | some k => if k = 0 then 5 else k

/-- `MemoryManager.retrieve_relevant_context` (manager.py 94-147), with the
external ChromaDB call parametrised by its outcome: the function body is one
try/except returning `[]` on any exception, so an `.error` outcome of the
index call yields the empty list and nothing propagates. The metadata filter
passed to the index is (user_id, optional room_id). -/
def retrieveRelevantContext
    (chromaQuery : String → Nat → String × Option String →
      Except String ChromaResults)
    (query : String) (uid : String) (rid : Option String)
    (topK : Option Nat) : List ContextNode :=
  match chromaQuery query (resolveTopK topK) (uid, rid) with
  | Except.ok r => formatChromaResults r
  | Except.error _ => []

/-- C5: retrieval is fail-soft. For every query, user and room, if the
external semantic index call fails (raises), `retrieve_relevant_context`
returns the empty list; being a total function of the call outcome, no
exception escapes it. -/
theorem retrieve_failsoft
    (chromaQuery : String → Nat → String × Option String →
      Except String ChromaResults)
    (query : String) (uid : String) (rid : Option String)
    (topK : Option Nat) (e : String)
    (hfail : chromaQuery query (resolveTopK topK) (uid, rid) =
      Except.error e) :
    retrieveRelevantContext chromaQuery query uid rid topK = [] := by
  unfold retrieveRelevantContext
  rw [hfail]

/-- C5 witness: a concrete always-failing index yields the empty list; the
failure hypothesis is discharged by `rfl`. -/
theorem retrieve_failsoft_witness :
    retrieveRelevantContext (fun _ _ _ => Except.error "index unavailable")
      "query" "u" none none = [] :=
  retrieve_failsoft (fun _ _ _ => Except.error "index unavailable")
    "query" "u" none none "index unavailable" rfl

/-- One record iteration of `PreferenceLearner.apply_time_decay`
(learner.py 188-200), on the real-valued idealisation: with
`weeks = elapsed_seconds / (7 * 24 * 3600)` inlined, decay is applied only
when `weeks > 0`; the decayed value is snapped to 0.0 under the 0.05 floor;
otherwise the confidence is left untouched. -/
noncomputable def applyTimeDecayOne (conf decayRate elapsedSeconds : ℝ) : ℝ :=
  if elapsedSeconds / (7 * 24 * 3600) > 0 then
    (if conf * decayRate ^ (elapsedSeconds / (7 * 24 * 3600)) < 0.05 then 0
     else conf * decayRate ^ (elapsedSeconds / (7 * 24 * 3600)))
  else conf

/-- Modelled from the claim wording (the decay formula applied
unconditionally): `confidence * rate ** weeks`, snapped to 0.0 below the
0.05 floor, with fractional `weeks` elapsed since the last update. Used only
to compare the source behaviour against the claim. -/
noncomputable def decaySpecValue (conf decayRate elapsedSeconds : ℝ) : ℝ :=
  if conf * decayRate ^ (elapsedSeconds / (7 * 24 * 3600)) < 0.05 then 0
  else conf * decayRate ^ (elapsedSeconds / (7 * 24 * 3600))

/-- A preference row as seen by the decay pass: identifier, owner, a
real-valued confidence and the last-update instant (epoch seconds). -/
structure DecayPref where
  id : Nat
  userId : String
  confidence : ℝ
  updatedAt : ℝ

/-- `PreferenceLearner.apply_time_decay` (learner.py 179-200) over the whole
table: the rows of the user fetched at threshold 0.0 (`confidence >= 0`) are
rewritten in place through `applyTimeDecayOne`; every other row is untouched
and no row is removed. -/
noncomputable def applyTimeDecay (store : List DecayPref) (uid : String)
    (decayRate : ℝ) (now : ℝ) : List DecayPref :=
  store.map (fun r =>
    if r.userId = uid ∧ 0 ≤ r.confidence then
      { r with confidence :=
          applyTimeDecayOne r.confidence decayRate (now - r.updatedAt) }
    else r)

/-- C2 counterexample: at exactly zero elapsed time a record with confidence
0.04 is left at 0.04 by the source (the `weeks > 0` guard skips it), while
the claim formula value is `0.04 * rate^0 = 0.04 < 0.05`, hence snapped to
0.0: the claim as stated is false at this input. -/
theorem decay_zero_elapsed_counterexample :
    applyTimeDecayOne (4/100) (19/20) 0 = 4/100 ∧
    decaySpecValue (4/100) (19/20) 0 = 0 ∧
    (4/100 : ℝ) ≠ 0 := by
  refine ⟨?_, ?_, by norm_num⟩
  · unfold applyTimeDecayOne
    rw [if_neg]
    norm_num
  · unfold decaySpecValue
    rw [show ((0 : ℝ) / (7 * 24 * 3600)) = 0 by norm_num, Real.rpow_zero]
    rw [if_pos]
    norm_num

/-- C2 as amended: for a record with positive elapsed time since its last
update, the decay pass stores exactly the claim value
`old * rate ^ weeks_elapsed` snapped to 0.0 below the 0.05 floor; a record
with zero or negative elapsed time is left unchanged (in particular it is not
snapped to 0.0 even when its confidence is below the floor); and the pass
never deletes a record (row ids are preserved). -/
theorem decay_formula (conf decayRate elapsedSeconds : ℝ) :
    (0 < elapsedSeconds →
      applyTimeDecayOne conf decayRate elapsedSeconds =
        decaySpecValue conf decayRate elapsedSeconds) ∧
    (elapsedSeconds ≤ 0 →
      applyTimeDecayOne conf decayRate elapsedSeconds = conf) ∧
    (∀ (store : List DecayPref) (uid : String) (now : ℝ),
      (applyTimeDecay store uid decayRate now).map (fun r => r.id) =
        store.map (fun r => r.id)) := by
  refine ⟨?_, ?_, ?_⟩
  · intro h
    have hw : 0 < elapsedSeconds / (7 * 24 * 3600) :=
      div_pos h (by norm_num)
    unfold applyTimeDecayOne decaySpecValue
    rw [if_pos hw]
  · intro h
    have hw : elapsedSeconds / (7 * 24 * 3600) ≤ 0 :=
      div_nonpos_iff.mpr (Or.inr ⟨h, by norm_num⟩)
    unfold applyTimeDecayOne
    rw [if_neg (not_lt.mpr hw)]
  · intro store uid now
    unfold applyTimeDecay
    rw [List.map_map]
    apply List.map_congr_left
    intro r _
    by_cases hc : r.userId = uid ∧ 0 ≤ r.confidence
    · simp [hc]
    · simp [hc]

/-- C2 amended-claim witness: at one week of elapsed time the stored value is
the claim formula value, and at zero elapsed time the confidence is returned
unchanged; both hypotheses are discharged numerically. -/
theorem decay_formula_witness :
    applyTimeDecayOne (1/2) (19/20) 604800 =
      decaySpecValue (1/2) (19/20) 604800 ∧
    applyTimeDecayOne (1/2) (19/20) 0 = 1/2 :=
  ⟨(decay_formula (1/2) (19/20) 604800).1 (by norm_num),
   (decay_formula (1/2) (19/20) 0).2.1 (by norm_num)⟩

/-- The raw decayed value computed by the pass as a function of the current
instant `t`: `conf * rate ^ ((t - updatedAt) / week_seconds)`. -/
noncomputable def decayedConfidenceAt (conf decayRate updatedAt t : ℝ) : ℝ :=
  conf * decayRate ^ ((t - updatedAt) / (7 * 24 * 3600))

/-- C7: for a record with fixed `updated_at` in the past, positive
confidence and decay rate in (0,1), the decayed value strictly decreases as
the current time advances; and once that value falls below the 0.05 floor,
the stored confidence produced by the decay pass is exactly 0. -/
theorem decay_monotone (conf decayRate updatedAt t1 t2 : ℝ)
    (hc : 0 < conf) (h0 : 0 < decayRate) (h1 : decayRate < 1)
    (hu : updatedAt < t1) (ht : t1 < t2) :
    decayedConfidenceAt conf decayRate updatedAt t2 <
      decayedConfidenceAt conf decayRate updatedAt t1 ∧
    (decayedConfidenceAt conf decayRate updatedAt t1 < 0.05 →
      applyTimeDecayOne conf decayRate (t1 - updatedAt) = 0) := by
  constructor
  · unfold decayedConfidenceAt
    apply mul_lt_mul_of_pos_left _ hc
    apply Real.rpow_lt_rpow_of_exponent_gt h0 h1
    rw [div_lt_div_iff_of_pos_right (by norm_num : (0:ℝ) < 7 * 24 * 3600)]
    exact sub_lt_sub_right ht updatedAt
  · intro hfloor
    unfold decayedConfidenceAt at hfloor
    have hw : 0 < (t1 - updatedAt) / (7 * 24 * 3600) :=
      div_pos (by linarith) (by norm_num)
    unfold applyTimeDecayOne
    rw [if_pos hw, if_pos hfloor]

/-- C7 witness: at 60 and 61 weeks past the update instant, the decayed value
strictly decreases, and at 60 weeks it is below the floor
(0.5 * 0.95^60 < 0.05), so the stored confidence is 0; all hypotheses are
discharged numerically. -/
theorem decay_monotone_witness :
    decayedConfidenceAt (1/2) (19/20) 0 (61 * 604800) <
      decayedConfidenceAt (1/2) (19/20) 0 (60 * 604800) ∧
    applyTimeDecayOne (1/2) (19/20) (60 * 604800 - 0) = 0 := by
  have h := decay_monotone (1/2) (19/20) 0 (60 * 604800) (61 * 604800)
    (by norm_num) (by norm_num) (by norm_num) (by norm_num) (by norm_num)
  refine ⟨h.1, h.2 ?_⟩
  unfold decayedConfidenceAt
  rw [show ((60 : ℝ) * 604800 - 0) / (7 * 24 * 3600) = ((60 : ℕ) : ℝ) by
    norm_num]
  rw [Real.rpow_natCast]
  norm_num

/-- A candidate returned by the base vector retriever: the stored text, the
metadata fields the hybrid retriever reads (user id, room id, timestamp) and
nothing else. A `none` timestamp stands for a missing or unparseable
timestamp string. The timestamp value is in epoch seconds. -/
structure RetNode where
  nodeText : String
  userId : Option String
  roomId : Option String
  timestamp : Option ℝ

/-- A node together with its retrieval score (`NodeWithScore`). -/
structure ScoredNode where
  node : RetNode
  score : ℝ

/-- The metadata filter of `HybridRetriever._retrieve` (retriever.py 49-61):
a configured user id (resp. room id) must equal the node metadata field. -/
def passesFilter (uid rid : Option String) (n : RetNode) : Bool :=
  (match uid with
   | none => true
   | some u => n.userId == some u) &&
  (match rid with
   | none => true
   | some r => n.roomId == some r)

/-- The recency score of retriever.py 72-82: exponential decay
`2 ^ (-age_days / 7)` with `age_days = (now - timestamp) / 86400` seconds;
a missing or unparseable timestamp defaults to 0.5. -/
noncomputable def recencyScore (now : ℝ) (ts : Option ℝ) : ℝ :=
  match ts with
  | some t => (2 : ℝ) ^ (-((now - t) / 86400) / 7)
  | none => 0.5

/-- Sorted-descending-by-score order on scored nodes. -/
def scoreGE (a b : ScoredNode) : Prop := b.score ≤ a.score

noncomputable instance : DecidableRel scoreGE :=
  fun a b => Real.decidableLE b.score a.score

instance : IsTotal ScoredNode scoreGE :=
  ⟨fun a b => le_total b.score a.score⟩

instance : IsTrans ScoredNode scoreGE :=
  ⟨fun _ _ _ hab hbc => le_trans hbc hab⟩

/-- `HybridRetriever._retrieve` (retriever.py 42-97): filter the base
candidates by metadata, re-score each as
`similarity_weight * similarity + recency_weight * recency`, sort descending
by the combined score (a stable sort, as in the source) and truncate to
`top_k`. -/
noncomputable def hybridRetrieve (uid rid : Option String)
    (similarityWeight recencyWeight : ℝ) (topK : Nat) (now : ℝ)
    (nodes : List ScoredNode) : List ScoredNode :=
  (List.insertionSort scoreGE
    ((nodes.filter (fun ns => passesFilter uid rid ns.node)).map
      (fun ns =>
        { node := ns.node
          score := similarityWeight * ns.score
            + recencyWeight * recencyScore now ns.node.timestamp }))).take topK

/-- C3: with the fixed policy weights 0.7 and 0.3, every returned candidate
carries the combined score `0.7 * similarity + 0.3 * recency` of some input
candidate; the returned list is sorted descending by combined score and has
at most `top_k` items; the recency score is 0.5 for a missing or unparseable
timestamp, 1 at age zero, 0.5 at age exactly 7 days, and in general
`2 ^ (-age_days / 7)` by definition. -/
theorem hybrid_retrieve_spec (uid rid : Option String) (topK : Nat) (now : ℝ)
    (nodes : List ScoredNode) :
    (∀ s ∈ hybridRetrieve uid rid (7/10) (3/10) topK now nodes,
      ∃ ns ∈ nodes, s.node = ns.node ∧
        s.score = 7/10 * ns.score
          + 3/10 * recencyScore now ns.node.timestamp) ∧
    List.Sorted scoreGE (hybridRetrieve uid rid (7/10) (3/10) topK now nodes) ∧
    (hybridRetrieve uid rid (7/10) (3/10) topK now nodes).length ≤ topK ∧
    recencyScore now none = 1/2 ∧
    recencyScore now (some now) = 1 ∧
    recencyScore now (some (now - 7 * 86400)) = 1/2 := by
  refine ⟨?_, ?_, ?_, ?_, ?_, ?_⟩
  · intro s hs
    have hs1 : s ∈ List.insertionSort scoreGE
        ((nodes.filter (fun ns => passesFilter uid rid ns.node)).map
          (fun ns =>
            { node := ns.node
              score := 7/10 * ns.score
                + 3/10 * recencyScore now ns.node.timestamp })) :=
      List.mem_of_mem_take hs
    have hs2 := (List.perm_insertionSort scoreGE _).mem_iff.mp hs1
    rcases List.mem_map.mp hs2 with ⟨ns, hns, hmap⟩
    exact ⟨ns, (List.mem_filter.mp hns).1, by rw [← hmap], by rw [← hmap]⟩
  · exact List.Pairwise.sublist (List.take_sublist _ _)
      (List.sorted_insertionSort scoreGE _)
  · exact List.length_take_le _ _
  · norm_num [recencyScore]
  · show (2 : ℝ) ^ (-((now - now) / 86400) / 7) = 1
    rw [show (-((now - now) / 86400) / 7 : ℝ) = 0 by ring, Real.rpow_zero]
  · show (2 : ℝ) ^ (-((now - (now - 7 * 86400)) / 86400) / 7) = 1/2
    rw [show (-((now - (now - 7 * 86400)) / 86400) / 7 : ℝ) = ((-1 : ℤ) : ℝ)
      by push_cast; ring]
    rw [Real.rpow_intCast]
    norm_num

/-- C3 witness: the theorem instantiated at a concrete call, extracting the
three concrete recency facts at time 0. -/
theorem hybrid_retrieve_spec_witness :
    recencyScore 0 none = 1/2 ∧ recencyScore 0 (some 0) = 1 ∧
    recencyScore 0 (some (0 - 7 * 86400)) = 1/2 :=
  ⟨(hybrid_retrieve_spec none none 5 0 []).2.2.2.1,
   (hybrid_retrieve_spec none none 5 0 []).2.2.2.2.1,
   (hybrid_retrieve_spec none none 5 0 []).2.2.2.2.2⟩
